import Mathlib

/-!
Verification of the audioSplit job-orchestration spec against the repository.
The repository ships the Next.js presentation layer (the SeparateMode, MixMode
and KaraokeMode components, embedded below from the TypeScript source); the
FastAPI backend (job registry, pipelines, status/download service) is referenced
by the README but its code is not in the repository, so the backend side is
modelled from the specification text, as indicated on each such definition.
-/

/-- Job lifecycle states, from spec section 4.3. -/
inductive JobState where
  | queued
  | processing
  | done
  | error
deriving DecidableEq

/-- Modelled from the spec: the backend state machine of section 4.3
(backend/app.py is not in the repository). Allowed transitions are
queued to processing, processing to done, processing to error; done and
error are terminal. -/
def jobStep : JobState → JobState → Bool
  | JobState.queued, JobState.processing => true
  | JobState.processing, JobState.done => true
  | JobState.processing, JobState.error => true
  | _, _ => false

/-- A trace of successive states is valid from state s when consecutive
states are related by jobStep. -/
def validFrom : JobState → List JobState → Bool
  | _, [] => true
  | s, t :: rest => jobStep s t && validFrom t rest

/-- Error taxonomy of spec section 7. -/
inductive ErrorCategory where
  | invalidInput
  | incompatibleInputs
  | engineFailure
  | engineOutputMismatch
  | storageFailure
  | notFound
deriving DecidableEq

/-- A decoded waveform: sample rate, channel count, and samples. -/
structure Audio where
  sampleRate : Nat
  channels : Nat
  samples : List Int
deriving DecidableEq

/-- Outcome of one pipeline run: either the produced outputs keyed by
logical name, or an error category. -/
inductive JobResult where
  | done (outputs : List (String × Audio))
  | error (category : ErrorCategory)
deriving DecidableEq

/-- The fixed expected stem set of the Separation Engine (spec sections 4.3
and 9; mirrored by the stemColors table in SeparateMode.tsx). -/
def expectedStems : List String := ["vocals", "drums", "bass", "other"]

/-- Modelled from the spec: the backend Separate pipeline of section 4.3
(backend/app.py is not in the repository). The engine result is accepted
only when its stem names are exactly the fixed expected set; a subset or
any unexpected name is treated as an engine failure, never surfaced as
done. -/
def runSeparate (engine : List (String × Audio)) : JobResult :=
  if (∀ s ∈ expectedStems, s ∈ engine.map Prod.fst) ∧
      (∀ n ∈ engine.map Prod.fst, n ∈ expectedStems) then
    JobResult.done engine
  else JobResult.error ErrorCategory.engineFailure

/-- Sample-accurate pointwise addition of two sample sequences. -/
def addSamples : List Int → List Int → List Int
  | [], ys => ys
  | x :: xs, [] => x :: xs
  | x :: xs, y :: ys => (x + y) :: addSamples xs ys

/-- Pointwise sum of several sample sequences. -/
def sumSamples (l : List (List Int)) : List Int := l.foldr addSamples []

/-- Modelled from the spec: the backend Karaoke pipeline of section 4.3
(backend/app.py is not in the repository). All returned stems must share
one sample rate and channel count, otherwise the job fails with
EngineOutputMismatch; on success the sole output, under logical name
karaoke, is the sample-accurate sum of every stem except vocals. -/
def runKaraoke : List (String × Audio) → JobResult
  | [] => JobResult.error ErrorCategory.engineFailure
  | first :: rest =>
    if ∀ p ∈ first :: rest,
        p.2.sampleRate = first.2.sampleRate ∧ p.2.channels = first.2.channels then
      JobResult.done [(("karaoke"),
        { sampleRate := first.2.sampleRate
          channels := first.2.channels
          samples := sumSamples
            (((first :: rest).filter (fun p => p.1 != "vocals")).map
              (fun p => p.2.samples)) })]
    else JobResult.error ErrorCategory.engineOutputMismatch

/-- Outcome of a Mix pipeline run together with whether the Separation
Engine was invoked during the run. -/
structure MixOutcome where
  result : JobResult
  engineInvoked : Bool
deriving DecidableEq

/-- Modelled from the spec: the backend Mix pipeline of section 4.3
(backend/app.py is not in the repository). Sample rate and channel layout
are verified across all inputs before any processing; on mismatch the job
fails with IncompatibleInputs and no engine call is attempted. The Mix
pipeline uses only the codec and mixer primitives, so the Separation
Engine is invoked on no path. -/
def runMix : List Audio → MixOutcome
  | [] => { result := JobResult.error ErrorCategory.invalidInput, engineInvoked := false }
  | a :: rest =>
    if ∀ b ∈ rest, b.sampleRate = a.sampleRate ∧ b.channels = a.channels then
      { result := JobResult.done [(("mixed"),
          { sampleRate := a.sampleRate
            channels := a.channels
            samples := sumSamples ((a :: rest).map Audio.samples) })]
        engineInvoked := false }
    else
      { result := JobResult.error ErrorCategory.incompatibleInputs, engineInvoked := false }

/-- Job kinds, from spec section 3. -/
inductive JobKind where
  | separate
  | mix
  | karaoke
deriving DecidableEq

/-- A job record of the Job Registry (spec section 3): kind, state, outputs
as a mapping from logical name to stored bytes, input references, and the
error category when failed. -/
structure Job where
  kind : JobKind
  state : JobState
  inputs : List String
  outputs : List (String × List Nat)
  errorDetail : Option ErrorCategory
deriving DecidableEq

/-- First-match association lookup, used for the registry, the outputs
mapping and the stemColors table. -/
def lookupKey {β : Type} (k : String) : List (String × β) → Option β
  | [] => none
  | (k₀, v) :: rest => if k₀ = k then some v else lookupKey k rest

/-- The in-memory Job Registry: job id to job record. -/
def Registry : Type := List (String × Job)

/-- Fetch a job record by id. -/
def lookupJob (reg : Registry) (id : String) : Option Job := lookupKey id reg

/-- Replace the record bound to an id, leaving other bindings unchanged. -/
def updateJob : Registry → String → Job → Registry
  | [], _, _ => []
  | (k, j) :: rest, id, j₁ =>
    if k = id then (k, j₁) :: rest else (k, j) :: updateJob rest id j₁

/-- Modelled from the spec: one registry mutation of sections 4.2 and 3
(backend/app.py is not in the repository). A new job is created queued with
empty outputs under a fresh id, or an existing job transitions along the
state machine; terminal jobs admit no transition, so their records are
never rewritten. -/
inductive RegStep : Registry → Registry → Prop where
  | create (reg : Registry) (id : String) (job : Job) :
      lookupJob reg id = none → job.state = JobState.queued → job.outputs = [] →
      RegStep reg ((id, job) :: reg)
  | transition (reg : Registry) (id : String) (job job₁ : Job) :
      lookupJob reg id = some job → jobStep job.state job₁.state = true →
      RegStep reg (updateJob reg id job₁)

/-- Reachability of one registry from another by registry mutations. -/
def RegReach : Registry → Registry → Prop := Relation.ReflTransGen RegStep

/-- Modelled from the spec: the download path of the Status/Download Service
for one located job record (spec section 4.4; backend/app.py is not in the
repository). -/
def downloadJob (job : Job) (name : String) : Except ErrorCategory (List Nat) :=
  if job.state = JobState.done then
    match lookupKey name job.outputs with
    | some bytes => Except.ok bytes
    | none => Except.error ErrorCategory.notFound
  else Except.error ErrorCategory.notFound

/-- Modelled from the spec: download of section 4.4 (backend/app.py is not
in the repository). Fails with NotFound when the job is unknown, the
logical name is not in outputs, or the job is not yet done. -/
def download (reg : Registry) (id name : String) : Except ErrorCategory (List Nat) :=
  match lookupJob reg id with
  | none => Except.error ErrorCategory.notFound
  | some job => downloadJob job name

/-- A status response: state, logical output names, and error category.
The response carries names only, never file bytes. -/
structure StatusResponse where
  state : JobState
  stems : List String
  errorCategory : Option ErrorCategory
deriving DecidableEq

/-- The status response derived from one job record: its state, the logical
names of its outputs, and its error category. -/
def responseOfJob (job : Job) : StatusResponse :=
  { state := job.state
    stems := job.outputs.map Prod.fst
    errorCategory := job.errorDetail }

/-- Modelled from the spec: status of section 4.4 (backend/app.py is not in
the repository). Fails with NotFound for unknown ids; otherwise reports
state, logical output names and error category, with no file bytes. -/
def statusOf (reg : Registry) (id : String) : Except ErrorCategory StatusResponse :=
  match lookupJob reg id with
  | none => Except.error ErrorCategory.notFound
  | some job => Except.ok (responseOfJob job)

/-- Modelled from the spec: the mix intake of sections 4.1 and 6
(backend/app.py is not in the repository). Fewer than two files fail with
InvalidInput before any job is created, so no job id is issued; otherwise a
queued Mix job is created. -/
def mixIntake (files : List String) : Except ErrorCategory Job :=
  if files.length < 2 then Except.error ErrorCategory.invalidInput
  else Except.ok
    { kind := JobKind.mix
      state := JobState.queued
      inputs := files
      outputs := []
      errorDetail := none }

/- Frontend embeddings, from src/frontend/components. -/

/-- The API base URL, from the API_URL constant shared by the three
components. -/
def apiUrl : String := "http://localhost:8000"

/-- The status poll URL built by the components for a job id. -/
def statusUrl (jobId : String) : String := apiUrl ++ "/api/status/" ++ jobId

/-- The stem color table of SeparateMode.tsx (stemColors, lines 23 to 28). -/
def stemColors : List (String × String) :=
  [("vocals", "#a78bfa"), ("drums", "#f87171"), ("bass", "#fbbf24"), ("other", "#34d399")]

/-- Removal of the first occurrence of a pattern from a character list,
embedding the JavaScript String.replace first-occurrence semantics with an
empty replacement. -/
def removeFirstSub (pat : List Char) : List Char → List Char
  | [] => []
  | c :: cs =>
    if pat.isPrefixOf (c :: cs) then (c :: cs).drop pat.length
    else c :: removeFirstSub pat cs

/-- JavaScript s.replace(pat, empty string): the first occurrence of pat in
s is removed; s is unchanged when pat does not occur. -/
def jsReplaceOnce (s pat : String) : String :=
  String.mk (removeFirstSub pat.toList s.toList)

/-- A stem record built by SeparateMode.tsx from one filename of the status
response. -/
structure Stem where
  name : String
  filename : String
  color : String
deriving DecidableEq

/-- The stem record construction of SeparateMode.tsx lines 79 to 86: the
name is the filename with the first occurrence of .wav removed, and the
color is looked up in stemColors with default value #9aa4b2. -/
def mkStem (filename : String) : Stem :=
  { name := jsReplaceOnce filename (".wav")
    filename := filename
    color := (lookupKey (jsReplaceOnce filename (".wav")) stemColors).getD ("#9aa4b2") }

/-- Client-visible state of the SeparateMode component: the status string
and the stems list. -/
structure SepClientState where
  status : String
  stems : List Stem
deriving DecidableEq

/-- Client-visible state of the KaraokeMode and MixMode components: the
status string. -/
structure SimpleClientState where
  status : String
deriving DecidableEq

/-- Outcome of one status poll attempt: the request threw, or a response
with a status string and a stems list was received. -/
inductive PollResult where
  | threw
  | response (status : String) (stems : List String)
deriving DecidableEq

/-- True exactly for a received response whose status is done or error. -/
def isTerminalResult : PollResult → Bool
  | PollResult.threw => false
  | PollResult.response st _ => st == "done" || st == "error"

/-- One tick of the SeparateMode polling interval (SeparateMode.tsx lines
72 to 96): on a done response the status becomes done, the stems list is
built and the interval is cleared; on an error response the status becomes
error and the interval is cleared; on any other response, or when the
request throws, the state is unchanged and polling continues. The Bool
records whether clearInterval ran. -/
def sepPollTick (s : SepClientState) : PollResult → SepClientState × Bool
  | PollResult.threw => (s, false)
  | PollResult.response st stemsList =>
    if st = "done" then
      ({ status := "done", stems := stemsList.map mkStem }, true)
    else if st = "error" then
      ({ s with status := "error" }, true)
    else (s, false)

/-- One tick of the KaraokeMode polling interval (KaraokeMode.tsx lines 57
to 88), with the waveform side effects omitted. -/
def karaokePollTick (s : SimpleClientState) : PollResult → SimpleClientState × Bool
  | PollResult.threw => (s, false)
  | PollResult.response st _ =>
    if st = "done" then ({ status := "done" }, true)
    else if st = "error" then ({ status := "error" }, true)
    else (s, false)

/-- One tick of the MixMode polling interval (MixMode.tsx lines 57 to 88),
with the waveform side effects omitted. -/
def mixPollTick (s : SimpleClientState) : PollResult → SimpleClientState × Bool
  | PollResult.threw => (s, false)
  | PollResult.response st _ =>
    if st = "done" then ({ status := "done" }, true)
    else if st = "error" then ({ status := "error" }, true)
    else (s, false)

/-- The SeparateMode polling loop over a sequence of poll outcomes: ticks
run in order and stop at the first tick that clears the interval. -/
def sepPollLoop (s : SepClientState) : List PollResult → SepClientState
  | [] => s
  | r :: rs =>
    if (sepPollTick s r).2 then (sepPollTick s r).1
    else sepPollLoop (sepPollTick s r).1 rs

/-- The polling interval of SeparateMode.tsx, in milliseconds (the second
argument of setInterval on line 96). -/
def sepPollIntervalMs : Nat := 2000

/-- The polling interval of KaraokeMode.tsx, in milliseconds. -/
def karaokePollIntervalMs : Nat := 2000

/-- The polling interval of MixMode.tsx, in milliseconds. -/
def mixPollIntervalMs : Nat := 2000

/-- The guard of the polling effect, identical in the three components:
polling is active exactly when a job id is present and the status is
processing. -/
def pollingActive (jobId : Option String) (status : String) : Bool :=
  jobId.isSome && status == "processing"

/-- The upload guard of MixMode.tsx handleUpload (lines 24 to 26): with
fewer than two selected files the handler returns and no request is sent;
otherwise the files are posted to the mix endpoint. -/
def mixHandleUpload (files : List String) : Option (List String) :=
  if files.length < 2 then none else some files

/- Helper lemmas. -/

theorem lookupKey_eq_none_iff {β : Type} (k : String) (l : List (String × β)) :
    lookupKey k l = none ↔ k ∉ l.map Prod.fst := by
  induction l with
  | nil => simp [lookupKey]
  | cons p rest ih =>
    obtain ⟨k₀, v⟩ := p
    by_cases h : k₀ = k
    · subst h
      simp [lookupKey]
    · have h₁ : k ≠ k₀ := fun he => h he.symm
      simpa [lookupKey, h, h₁] using ih

theorem lookupKey_updateJob_ne (reg : Registry) (id id₁ : String) (j₁ : Job)
    (h : id₁ ≠ id) : lookupKey id (updateJob reg id₁ j₁) = lookupKey id reg := by
  induction reg with
  | nil => rfl
  | cons p rest ih =>
    obtain ⟨k, j⟩ := p
    by_cases hk : k = id₁
    · subst hk
      have hne : ¬ (k = id) := fun he => h (he ▸ rfl)
      simp [updateJob, lookupKey, hne]
    · by_cases hid : k = id
      · subst hid
        simp [updateJob, lookupKey, hk]
      · simp [updateJob, lookupKey, hk, hid, ih]

theorem jobStep_done_false (t : JobState) : jobStep JobState.done t = false := by
  cases t <;> rfl

theorem regStep_preserves_done {reg reg₁ : Registry} {id : String} {j : Job}
    (h : RegStep reg reg₁) (hl : lookupJob reg id = some j)
    (hd : j.state = JobState.done) : lookupJob reg₁ id = some j := by
  cases h with
  | create nid nj hnone hq ho =>
    by_cases he : nid = id
    · subst he
      rw [hl] at hnone
      exact absurd hnone (by simp)
    · simpa [lookupJob, lookupKey, he] using hl
  | transition id₁ jo jo₁ hlo hstep =>
    by_cases he : id₁ = id
    · subst he
      rw [hl] at hlo
      obtain rfl : j = jo := by injection hlo
      rw [hd, jobStep_done_false] at hstep
      exact absurd hstep (by simp)
    · show lookupKey id (updateJob reg id₁ jo₁) = some j
      rw [lookupKey_updateJob_ne reg id id₁ jo₁ he]
      exact hl

theorem regReach_preserves_done {reg reg₁ : Registry} {id : String} {j : Job}
    (h : RegReach reg reg₁) (hl : lookupJob reg id = some j)
    (hd : j.state = JobState.done) : lookupJob reg₁ id = some j := by
  induction h with
  | refl => exact hl
  | tail hab hstep ih => exact regStep_preserves_done hstep ih hd

theorem addSamples_getD (a b : List Int) (k : Nat) :
    (addSamples a b).getD k 0 = a.getD k 0 + b.getD k 0 := by
  induction a generalizing b k with
  | nil => simp [addSamples]
  | cons x xs ih =>
    cases b with
    | nil => simp [addSamples]
    | cons y ys =>
      cases k with
      | zero => simp [addSamples]
      | succ n => simpa [addSamples] using ih ys n

theorem sumSamples_getD (l : List (List Int)) (k : Nat) :
    (sumSamples l).getD k 0 = (l.map (fun s => s.getD k 0)).sum := by
  induction l with
  | nil => simp [sumSamples]
  | cons a rest ih =>
    show (addSamples a (sumSamples rest)).getD k 0 = _
    rw [addSamples_getD, ih]
    simp

theorem sepPollTick_cleared (s : SepClientState) (r : PollResult) :
    (sepPollTick s r).2 = isTerminalResult r := by
  cases r with
  | threw => rfl
  | response st stemsList =>
    by_cases h1 : st = "done"
    · simp [sepPollTick, isTerminalResult, h1]
    · by_cases h2 : st = "error"
      · simp [sepPollTick, isTerminalResult, h1, h2]
      · simp [sepPollTick, isTerminalResult, h1, h2]

theorem karaokePollTick_cleared (s : SimpleClientState) (r : PollResult) :
    (karaokePollTick s r).2 = isTerminalResult r := by
  cases r with
  | threw => rfl
  | response st stemsList =>
    by_cases h1 : st = "done"
    · simp [karaokePollTick, isTerminalResult, h1]
    · by_cases h2 : st = "error"
      · simp [karaokePollTick, isTerminalResult, h1, h2]
      · simp [karaokePollTick, isTerminalResult, h1, h2]

theorem mixPollTick_cleared (s : SimpleClientState) (r : PollResult) :
    (mixPollTick s r).2 = isTerminalResult r := by
  cases r with
  | threw => rfl
  | response st stemsList =>
    by_cases h1 : st = "done"
    · simp [mixPollTick, isTerminalResult, h1]
    · by_cases h2 : st = "error"
      · simp [mixPollTick, isTerminalResult, h1, h2]
      · simp [mixPollTick, isTerminalResult, h1, h2]

theorem sepPollLoop_first_terminal (s : SepClientState) (rs : List PollResult)
    (r : PollResult) (rest : List PollResult) (hr : isTerminalResult r = true)
    (hrs : ∀ x ∈ rs, isTerminalResult x = false) :
    sepPollLoop s (rs ++ r :: rest) = sepPollLoop s (rs ++ [r]) := by
  induction rs generalizing s with
  | nil =>
    have hstop : (sepPollTick s r).2 = true := by rw [sepPollTick_cleared, hr]
    simp [sepPollLoop, hstop]
  | cons x xs ih =>
    have hx : (sepPollTick s x).2 = false := by
      rw [sepPollTick_cleared]
      exact hrs x (List.mem_cons_self x xs)
    simp only [List.cons_append, sepPollLoop, hx, Bool.false_eq_true, if_false]
    exact ih (sepPollTick s x).1 (fun y hy => hrs y (List.mem_cons_of_mem x hy))

/- Claim theorems. -/

/-- C1: For every job, the state transitions exactly through Queued, then
Processing, then one terminal state (Done or Error): every valid transition
trace from Queued is a prefix of Queued, Processing, Done or of Queued,
Processing, Error, so no transition skips Processing, no transition leaves
Done or Error, and no transition returns to Queued after it has been
left. -/
theorem c1_state_machine (trace : List JobState)
    (h : validFrom JobState.queued trace = true) :
    (JobState.queued :: trace) <+:
        [JobState.queued, JobState.processing, JobState.done] ∨
      (JobState.queued :: trace) <+:
        [JobState.queued, JobState.processing, JobState.error] := by
  match trace with
  | [] => exact Or.inl ⟨[JobState.processing, JobState.done], rfl⟩
  | [t1] =>
    cases t1 <;> simp [validFrom, jobStep] at h
    exact Or.inl ⟨[JobState.done], rfl⟩
  | [t1, t2] =>
    cases t1 <;> cases t2 <;> simp [validFrom, jobStep] at h
    · exact Or.inl ⟨[], by simp⟩
    · exact Or.inr ⟨[], by simp⟩
  | t1 :: t2 :: t3 :: rest =>
    cases t1 <;> cases t2 <;> cases t3 <;> simp [validFrom, jobStep] at h

/-- Witness for C1 at the concrete trace processing, done. -/
theorem c1_state_machine_witness :
    validFrom JobState.queued [JobState.processing, JobState.done] = true ∧
    ((JobState.queued :: [JobState.processing, JobState.done]) <+:
        [JobState.queued, JobState.processing, JobState.done] ∨
      (JobState.queued :: [JobState.processing, JobState.done]) <+:
        [JobState.queued, JobState.processing, JobState.error]) :=
  ⟨by decide, c1_state_machine [JobState.processing, JobState.done] (by decide)⟩

/-- C2: For every Separate job that reaches Done, the outputs carry exactly
the fixed expected stem set (vocals, drums, bass, other) and nothing else;
when the engine returns only a proper subset of the expected stems the job
reaches Error, never Done; and the frontend stemColors table lists exactly
the expected stem set. -/
theorem c2_separate_outputs :
    (∀ (engine outputs : List (String × Audio)),
      runSeparate engine = JobResult.done outputs →
      ∀ s : String, s ∈ outputs.map Prod.fst ↔ s ∈ expectedStems)
    ∧ (∀ engine : List (String × Audio),
        (∀ n ∈ engine.map Prod.fst, n ∈ expectedStems) →
        (∃ s ∈ expectedStems, s ∉ engine.map Prod.fst) →
        runSeparate engine = JobResult.error ErrorCategory.engineFailure)
    ∧ stemColors.map Prod.fst = expectedStems := by
  refine ⟨?_, ?_, by decide⟩
  · intro engine outputs hdone s
    unfold runSeparate at hdone
    split_ifs at hdone with hc
    obtain rfl : engine = outputs := by injection hdone
    exact ⟨fun hs => hc.2 s hs, fun hs => hc.1 s hs⟩
  · intro engine hsub hex
    obtain ⟨s, hs, hns⟩ := hex
    unfold runSeparate
    exact if_neg fun hc => hns (hc.1 s hs)

/-- Witness for C2: an engine result holding only a vocals stem is rejected
as an engine failure. -/
theorem c2_separate_outputs_witness :
    runSeparate [(("vocals"), { sampleRate := 44100, channels := 2, samples := [] })]
      = JobResult.error ErrorCategory.engineFailure :=
  c2_separate_outputs.2.1 _ (by decide) ⟨"drums", by decide, by decide⟩

/-- C3: For every Mix request with fewer than two files, the client never
sends the request (the handleUpload guard of MixMode.tsx returns first) and
the intake fails with InvalidInput, issuing no job id and creating no
job. -/
theorem c3_mix_min_files :
    (∀ files : List String, files.length < 2 → mixHandleUpload files = none)
    ∧ (∀ files : List String, files.length < 2 →
        mixIntake files = Except.error ErrorCategory.invalidInput) := by
  constructor
  · intro files h
    simp [mixHandleUpload, h]
  · intro files h
    simp [mixIntake, h]

/-- Witness for C3 at a single-file request. -/
theorem c3_mix_min_files_witness :
    mixHandleUpload [("one.mp3")] = none ∧
    mixIntake [("one.mp3")] = Except.error ErrorCategory.invalidInput :=
  ⟨c3_mix_min_files.1 [("one.mp3")] (by decide),
    c3_mix_min_files.2 [("one.mp3")] (by decide)⟩

/-- C4: For every Mix job whose inputs have mismatched sample rate or
channel layout, the run ends with error category IncompatibleInputs and the
Separation Engine is never invoked for that job. -/
theorem c4_mix_incompatible (a : Audio) (rest : List Audio)
    (h : ∃ b ∈ rest, b.sampleRate ≠ a.sampleRate ∨ b.channels ≠ a.channels) :
    runMix (a :: rest) =
      { result := JobResult.error ErrorCategory.incompatibleInputs
        engineInvoked := false } := by
  obtain ⟨b, hb, hne⟩ := h
  simp only [runMix]
  exact if_neg fun hall => by
    obtain ⟨h1, h2⟩ := hall b hb
    cases hne with
    | inl h₀ => exact h₀ h1
    | inr h₀ => exact h₀ h2

/-- Witness for C4 at two inputs with differing sample rates. -/
theorem c4_mix_incompatible_witness :
    runMix [{ sampleRate := 44100, channels := 2, samples := [] },
            { sampleRate := 48000, channels := 2, samples := [] }] =
      { result := JobResult.error ErrorCategory.incompatibleInputs
        engineInvoked := false } :=
  c4_mix_incompatible _ _
    ⟨{ sampleRate := 48000, channels := 2, samples := [] }, by decide,
      Or.inl (by decide)⟩

/-- Characterization of the NotFound outcome of the per-job download path. -/
theorem downloadJob_eq_notFound_iff (job : Job) (name : String) :
    downloadJob job name = Except.error ErrorCategory.notFound ↔
      (job.state ≠ JobState.done ∨ name ∉ job.outputs.map Prod.fst) := by
  unfold downloadJob
  by_cases hs : job.state = JobState.done
  · rw [if_pos hs]
    cases ho : lookupKey name job.outputs with
    | none =>
      simp [hs, (lookupKey_eq_none_iff name job.outputs).1 ho]
    | some bytes =>
      simp only [hs]
      constructor
      · intro he
        exact absurd he (by simp)
      · rintro (h₀ | h₀)
        · exact absurd rfl h₀
        · have h₂ := (lookupKey_eq_none_iff name job.outputs).2 h₀
          rw [h₂] at ho
          exact Option.noConfusion ho
  · rw [if_neg hs]
    simp [hs]

/-- C5: download fails with NotFound exactly when the job id is unknown, the
job is not yet Done, or the logical name is not among the outputs; and once
a job is Done, any later registry reachable by further job creations and
transitions returns byte-identical download results for it. -/
theorem c5_download :
    (∀ (reg : Registry) (id name : String),
      download reg id name = Except.error ErrorCategory.notFound ↔
        (lookupJob reg id = none ∨
          ∃ job : Job, lookupJob reg id = some job ∧
            (job.state ≠ JobState.done ∨ name ∉ job.outputs.map Prod.fst)))
    ∧ (∀ (reg reg₁ : Registry) (id name : String) (job : Job),
        RegReach reg reg₁ → lookupJob reg id = some job →
        job.state = JobState.done →
        download reg₁ id name = download reg id name) := by
  constructor
  · intro reg id name
    cases hl : lookupJob reg id with
    | none => simp [download, hl]
    | some job =>
      simp only [download, hl]
      rw [downloadJob_eq_notFound_iff]
      constructor
      · intro h₀
        exact Or.inr ⟨job, rfl, h₀⟩
      · rintro (h₀ | ⟨job₁, hj, h₀⟩)
        · exact Option.noConfusion h₀
        · obtain rfl : job = job₁ := by injection hj
          exact h₀
  · intro reg reg₁ id name job hreach hl hd
    have hl₁ := regReach_preserves_done hreach hl hd
    simp [download, hl, hl₁]

/-- Witness for C5: a done job keeps byte-identical downloads across a
registry step that creates an unrelated job, and a missing name is
NotFound. -/
theorem c5_download_witness :
    download
        [(("j2"),
          { kind := JobKind.mix, state := JobState.queued, inputs := [],
            outputs := [], errorDetail := none }),
          (("j1"),
          { kind := JobKind.separate, state := JobState.done, inputs := ["a"],
            outputs := [("vocals.wav", [1, 2, 3])], errorDetail := none })]
        ("j1") ("vocals.wav") =
      download
        [(("j1"),
          { kind := JobKind.separate, state := JobState.done, inputs := ["a"],
            outputs := [("vocals.wav", [1, 2, 3])], errorDetail := none })]
        ("j1") ("vocals.wav") :=
  c5_download.2
    [(("j1"),
      { kind := JobKind.separate, state := JobState.done, inputs := ["a"],
        outputs := [("vocals.wav", [1, 2, 3])], errorDetail := none })]
    [(("j2"),
      { kind := JobKind.mix, state := JobState.queued, inputs := [],
        outputs := [], errorDetail := none }),
      (("j1"),
      { kind := JobKind.separate, state := JobState.done, inputs := ["a"],
        outputs := [("vocals.wav", [1, 2, 3])], errorDetail := none })]
    ("j1") ("vocals.wav")
    { kind := JobKind.separate, state := JobState.done, inputs := ["a"],
      outputs := [("vocals.wav", [1, 2, 3])], errorDetail := none }
    (Relation.ReflTransGen.single
      (RegStep.create _ ("j2")
        { kind := JobKind.mix, state := JobState.queued, inputs := [],
          outputs := [], errorDetail := none }
        (by decide) rfl rfl))
    (by decide) rfl

/-- C6: For every Karaoke job whose engine result is nonempty and has all
stems sharing one sample rate and channel count, the sole output under
logical name karaoke is the sample-accurate pointwise sum of every returned
stem except vocals; with differing rates or channel counts the job fails
with EngineOutputMismatch. -/
theorem c6_karaoke (first : String × Audio) (rest : List (String × Audio)) :
    ((∀ p ∈ first :: rest,
        p.2.sampleRate = first.2.sampleRate ∧ p.2.channels = first.2.channels) →
      ∃ out : Audio,
        runKaraoke (first :: rest) = JobResult.done [(("karaoke"), out)] ∧
        out.sampleRate = first.2.sampleRate ∧ out.channels = first.2.channels ∧
        ∀ k : Nat, out.samples.getD k 0 =
          (((first :: rest).filter (fun p => p.1 != "vocals")).map
            (fun p => p.2.samples.getD k 0)).sum)
    ∧ ((∃ p ∈ first :: rest,
          p.2.sampleRate ≠ first.2.sampleRate ∨ p.2.channels ≠ first.2.channels) →
        runKaraoke (first :: rest) =
          JobResult.error ErrorCategory.engineOutputMismatch) := by
  constructor
  · intro hcons
    simp only [runKaraoke, if_pos hcons]
    refine ⟨_, rfl, rfl, rfl, ?_⟩
    intro k
    rw [sumSamples_getD, List.map_map]
    rfl
  · intro hex
    obtain ⟨p, hp, hne⟩ := hex
    simp only [runKaraoke]
    exact if_neg fun hall => by
      obtain ⟨h1, h2⟩ := hall p hp
      cases hne with
      | inl h₀ => exact h₀ h1
      | inr h₀ => exact h₀ h2

/-- Witness for C6 at a concrete consistent engine result of a vocals and a
drums stem. -/
theorem c6_karaoke_witness :
    ∃ out : Audio,
      runKaraoke [(("vocals"), { sampleRate := 44100, channels := 2, samples := [5, 6] }),
          (("drums"), { sampleRate := 44100, channels := 2, samples := [3, 4] })] =
        JobResult.done [(("karaoke"), out)] ∧
      out.sampleRate = 44100 ∧ out.channels = 2 ∧
      ∀ k : Nat, out.samples.getD k 0 =
        ((([(("vocals"), { sampleRate := 44100, channels := 2, samples := [5, 6] }),
            (("drums"), { sampleRate := 44100, channels := 2, samples := [3, 4] })] :
              List (String × Audio)).filter
              (fun p => p.1 != "vocals")).map
          (fun p => p.2.samples.getD k 0)).sum :=
  (c6_karaoke (("vocals"), { sampleRate := 44100, channels := 2, samples := [5, 6] })
    [(("drums"), { sampleRate := 44100, channels := 2, samples := [3, 4] })]).1
    (by decide)

/-- C7: status fails with NotFound exactly for unknown job ids; for a known
job it reports the state, the logical output names only, and the error
category; and the response is independent of the stored file bytes. -/
theorem c7_status :
    (∀ (reg : Registry) (id : String),
      statusOf reg id = Except.error ErrorCategory.notFound ↔
        lookupJob reg id = none)
    ∧ (∀ (reg : Registry) (id : String) (job : Job),
        lookupJob reg id = some job →
        statusOf reg id = Except.ok
          { state := job.state
            stems := job.outputs.map Prod.fst
            errorCategory := job.errorDetail })
    ∧ (∀ job job₁ : Job, job.state = job₁.state →
        job.outputs.map Prod.fst = job₁.outputs.map Prod.fst →
        job.errorDetail = job₁.errorDetail →
        responseOfJob job = responseOfJob job₁) := by
  refine ⟨?_, ?_, ?_⟩
  · intro reg id
    cases hl : lookupJob reg id with
    | none => simp [statusOf, hl]
    | some job => simp [statusOf, hl]
  · intro reg id job hl
    simp [statusOf, hl, responseOfJob]
  · intro job job₁ h1 h2 h3
    simp [responseOfJob, h1, h2, h3]

/-- Witness for C7: two done jobs with the same output names but different
stored bytes yield the same status response, and the response lists logical
names only. -/
theorem c7_status_witness :
    statusOf
        [(("j1"),
          { kind := JobKind.separate, state := JobState.done, inputs := ["a"],
            outputs := [("vocals.wav", [1])], errorDetail := none })]
        ("j1") =
      Except.ok
        { state := JobState.done, stems := ["vocals.wav"], errorCategory := none }
    ∧ responseOfJob
        { kind := JobKind.separate, state := JobState.done, inputs := ["a"],
          outputs := [("vocals.wav", [1])], errorDetail := none } =
      responseOfJob
        { kind := JobKind.separate, state := JobState.done, inputs := ["a"],
          outputs := [("vocals.wav", [7, 7, 7])], errorDetail := none } :=
  ⟨c7_status.2.1
      [(("j1"),
        { kind := JobKind.separate, state := JobState.done, inputs := ["a"],
          outputs := [("vocals.wav", [1])], errorDetail := none })]
      ("j1")
      { kind := JobKind.separate, state := JobState.done, inputs := ["a"],
        outputs := [("vocals.wav", [1])], errorDetail := none }
      (by decide),
    c7_status.2.2
      { kind := JobKind.separate, state := JobState.done, inputs := ["a"],
        outputs := [("vocals.wav", [1])], errorDetail := none }
      { kind := JobKind.separate, state := JobState.done, inputs := ["a"],
        outputs := [("vocals.wav", [7, 7, 7])], errorDetail := none }
      rfl rfl rfl⟩

/-- C8: Each of the three components polls the status endpoint on a fixed
2000 millisecond interval, the polling effect is active exactly while a job
id is present with status processing, a tick clears the interval exactly on
the first received terminal status (done or error) and never on a
non-terminal one, and ticks after the first terminal response change
nothing. -/
theorem c8_polling :
    sepPollIntervalMs = 2000 ∧ karaokePollIntervalMs = 2000 ∧
    mixPollIntervalMs = 2000
    ∧ (∀ jobId : String,
        statusUrl jobId = "http://localhost:8000/api/status/" ++ jobId)
    ∧ (∀ (jobId : Option String) (status : String),
        pollingActive jobId status = true ↔
          jobId.isSome = true ∧ status = "processing")
    ∧ (∀ (s : SepClientState) (r : PollResult),
        (sepPollTick s r).2 = isTerminalResult r)
    ∧ (∀ (s : SimpleClientState) (r : PollResult),
        (karaokePollTick s r).2 = isTerminalResult r)
    ∧ (∀ (s : SimpleClientState) (r : PollResult),
        (mixPollTick s r).2 = isTerminalResult r)
    ∧ (∀ (s : SepClientState) (rs : List PollResult) (r : PollResult)
          (rest : List PollResult),
        isTerminalResult r = true → (∀ x ∈ rs, isTerminalResult x = false) →
        sepPollLoop s (rs ++ r :: rest) = sepPollLoop s (rs ++ [r])) := by
  refine ⟨rfl, rfl, rfl, fun j => rfl, ?_, sepPollTick_cleared,
    karaokePollTick_cleared, mixPollTick_cleared, sepPollLoop_first_terminal⟩
  intro jobId status
  cases jobId <;> simp [pollingActive]

/-- Witness for C8: with one non-terminal poll before a done response, the
polls after the done response are never processed. -/
theorem c8_polling_witness :
    sepPollLoop { status := "processing", stems := [] }
        ([PollResult.response ("processing") []] ++
          PollResult.response ("done") [("vocals.wav")] ::
            [PollResult.response ("error") []]) =
      sepPollLoop { status := "processing", stems := [] }
        ([PollResult.response ("processing") []] ++
          [PollResult.response ("done") [("vocals.wav")]]) :=
  c8_polling.2.2.2.2.2.2.2.2 _ _ _ _ (by decide) (by decide)

/-- C9: A status poll attempt that throws leaves the client state of each
component unchanged and does not stop the polling; starting from the
processing status, only a successfully received response whose status field
is error moves the client to the error state. -/
theorem c9_poll_failure :
    (∀ s : SepClientState, sepPollTick s PollResult.threw = (s, false))
    ∧ (∀ s : SimpleClientState, karaokePollTick s PollResult.threw = (s, false))
    ∧ (∀ s : SimpleClientState, mixPollTick s PollResult.threw = (s, false))
    ∧ (∀ (s : SepClientState) (r : PollResult), s.status = "processing" →
        ((sepPollTick s r).1.status = "error" ↔
          ∃ stems : List String, r = PollResult.response ("error") stems))
    ∧ (∀ (s : SimpleClientState) (r : PollResult), s.status = "processing" →
        ((karaokePollTick s r).1.status = "error" ↔
          ∃ stems : List String, r = PollResult.response ("error") stems))
    ∧ (∀ (s : SimpleClientState) (r : PollResult), s.status = "processing" →
        ((mixPollTick s r).1.status = "error" ↔
          ∃ stems : List String, r = PollResult.response ("error") stems)) := by
  refine ⟨fun s => rfl, fun s => rfl, fun s => rfl, ?_, ?_, ?_⟩
  · intro s r h
    cases r with
    | threw => simp [sepPollTick, h]
    | response st stems =>
      by_cases h1 : st = "done"
      · subst h1
        simp [sepPollTick]
      · by_cases h2 : st = "error"
        · subst h2
          simp [sepPollTick]
        · simp [sepPollTick, h1, h2, h]
  · intro s r h
    cases r with
    | threw => simp [karaokePollTick, h]
    | response st stems =>
      by_cases h1 : st = "done"
      · subst h1
        simp [karaokePollTick]
      · by_cases h2 : st = "error"
        · subst h2
          simp [karaokePollTick]
        · simp [karaokePollTick, h1, h2, h]
  · intro s r h
    cases r with
    | threw => simp [mixPollTick, h]
    | response st stems =>
      by_cases h1 : st = "done"
      · subst h1
        simp [mixPollTick]
      · by_cases h2 : st = "error"
        · subst h2
          simp [mixPollTick]
        · simp [mixPollTick, h1, h2, h]

/-- Witness for C9: a thrown poll leaves a processing client unchanged, and
a received error response is exactly what moves it to the error state. -/
theorem c9_poll_failure_witness :
    sepPollTick { status := "processing", stems := [] } PollResult.threw =
      ({ status := "processing", stems := [] }, false)
    ∧ ((sepPollTick { status := "processing", stems := [] }
          (PollResult.response ("error") [])).1.status = "error" ↔
        ∃ stems : List String,
          PollResult.response ("error") [] = PollResult.response ("error") stems) :=
  ⟨c9_poll_failure.1 _, c9_poll_failure.2.2.2.1 _ _ rfl⟩

/-- C10: The Separate client handles every stems list of a done response
totally: every entry is mapped to a stem record and none is dropped, the
record keeps the filename and takes as name the filename with the first
occurrence of .wav removed, a name outside the stemColors table gets the
default color, and a name in the table gets its color. -/
theorem c10_stem_mapping :
    (∀ stemsList : List String,
      (stemsList.map mkStem).map Stem.filename = stemsList)
    ∧ (∀ filename : String,
        (mkStem filename).name = jsReplaceOnce filename (".wav"))
    ∧ (∀ filename : String,
        (mkStem filename).name ∉ stemColors.map Prod.fst →
        (mkStem filename).color = "#9aa4b2")
    ∧ (∀ filename color : String,
        lookupKey (mkStem filename).name stemColors = some color →
        (mkStem filename).color = color) := by
  refine ⟨?_, fun f => rfl, ?_, ?_⟩
  · intro l
    induction l with
    | nil => rfl
    | cons x xs ih => simpa [mkStem] using ih
  · intro f hn
    have h₀ : lookupKey (jsReplaceOnce f (".wav")) stemColors = none :=
      (lookupKey_eq_none_iff _ _).2 hn
    show (lookupKey (jsReplaceOnce f (".wav")) stemColors).getD ("#9aa4b2") =
      "#9aa4b2"
    rw [h₀]
    rfl
  · intro f c hc
    have hc₁ : lookupKey (jsReplaceOnce f (".wav")) stemColors = some c := hc
    show (lookupKey (jsReplaceOnce f (".wav")) stemColors).getD ("#9aa4b2") = c
    rw [hc₁]
    rfl

/-- Witness for C10: the unexpected stem filename piano.wav maps to the
name piano with the default color. -/
theorem c10_stem_mapping_witness :
    (mkStem ("piano.wav")).name ∉ stemColors.map Prod.fst ∧
    (mkStem ("piano.wav")).color = "#9aa4b2" :=
  ⟨by decide, c10_stem_mapping.2.2.1 ("piano.wav") (by decide)⟩
